import Mathlib

/-!
Verification development for the Cosmos-Admin front-end.

Shallow embedding of the data-access hooks (cache keys and mutation
invalidation rules), the zod form-validation schemas, the form submit
normalization, the delete-confirmation dialogs, and the slug generator,
translated from the TypeScript source.
-/

/-! ## Cache keys and the invalidation model (hooks file and branding page)

React-query cache keys are ordered tuples; the hooks file uses arrays of
strings (and an optional params object we do not need for any claim, since
all claims concern the string components).  `invalidateQueries` with a key
marks stale every cached entry whose key has the given key as a sequence
prefix. -/

/-- A cache key prefix `pre` matches a cached entry key `k` when `pre` is a
sequence prefix of `k` (react-query partial matching). -/
def keyMatches (pre k : List String) : Bool :=
  List.isPrefixOf pre k

/-- The query cache: a list of entries, each a key together with a freshness
flag (`true` = fresh, `false` = stale/invalidated). -/
structure Cache where
  entries : List (List String × Bool)

/-- Mark stale every entry whose key matches the prefix `pre`
(`queryClient.invalidateQueries \x7b queryKey: pre \x7d`). -/
def invalidateKeys (pre : List String) (c : Cache) : Cache :=
  ⟨c.entries.map (fun e => if keyMatches pre e.1 then (e.1, false) else e)⟩

/-- Run a list of invalidations in order (the body of an `onSuccess`
callback). -/
def invalidateAll (pres : List (List String)) (c : Cache) : Cache :=
  pres.foldl (fun acc p => invalidateKeys p acc) c

/-- Freshness of the entry with key `k` (absent entries count as not
fresh). -/
def cacheFresh (c : Cache) (k : List String) : Bool :=
  (c.entries.lookup k).getD false

/-- Semantics of a `useMutation` binding with an `onSuccess` handler that
performs the invalidations `inv`: the remote call result is passed through
unmodified, and the cache is touched only when the call succeeded. -/
def runMutation {ε α : Type} (inv : List (List String)) (remote : Except ε α)
    (c : Cache) : Except ε α × Cache :=
  match remote with
  | Except.ok a => (Except.ok a, invalidateAll inv c)
  | Except.error e => (Except.error e, c)

/-- Observable events of one mutation invocation, in order. -/
inductive MutEvent where
  | remoteCall
  | remoteOk
  | remoteErr
  | invalidated (k : List String)
deriving DecidableEq, Repr

/-- Event trace of one mutation invocation: the remote call, its outcome,
and (only on success) the declared invalidations, in order. -/
def mutationTrace {ε α : Type} (inv : List (List String))
    (remote : Except ε α) : List MutEvent :=
  match remote with
  | Except.ok _ => MutEvent.remoteCall :: MutEvent.remoteOk :: inv.map MutEvent.invalidated
  | Except.error _ => [MutEvent.remoteCall, MutEvent.remoteErr]

/-- Whether an event is a cache invalidation. -/
def isInvalidationEvent : MutEvent → Bool
  | MutEvent.invalidated _ => true
  | _ => false

/-- Checks that no invalidation event occurs before a `remoteOk` event. -/
def invalidationOnlyAfterSuccess : List MutEvent → Bool
  | [] => true
  | MutEvent.remoteOk :: _ => true
  | ev :: t => !(isInvalidationEvent ev) && invalidationOnlyAfterSuccess t

/-! ### Query keys (from the hooks file and the branding page) -/

/-- Collection cache key used by the tenant mutations' invalidations
(`queryKey: ["tenants"]`). -/
def tenantsCollectionKey : List String := ["tenants"]

/-- Cache key of the `useTenant` item query (`queryKey: ["tenants", id]`). -/
def useTenantQueryKey (id : String) : List String := ["tenants", id]

/-- Cache key of the tenant query on the branding page
(`queryKey: ["tenant", tenantId]`). -/
def brandingPageQueryKey (tenantId : String) : List String := ["tenant", tenantId]

/-! ### Declared invalidation sets of the mutation hooks -/

/-- Invalidations of `useCreateTenant`. -/
def useCreateTenantInv : List (List String) := [["tenants"]]

/-- Invalidations of `useUpdateTenant`. -/
def useUpdateTenantInv (id : String) : List (List String) :=
  [["tenants"], ["tenants", id]]

/-- Invalidations of `useDeleteTenant`. -/
def useDeleteTenantInv : List (List String) := [["tenants"]]

/-- Invalidations of `useDeleteTenantPermanent`. -/
def useDeleteTenantPermanentInv : List (List String) := [["tenants"]]

/-- Invalidations of `useCreateUser`. -/
def useCreateUserInv : List (List String) := [["users"]]

/-- Invalidations of `useUpdateUser`. -/
def useUpdateUserInv (id : String) : List (List String) :=
  [["users"], ["users", id]]

/-- Invalidations of `useDeleteUser`. -/
def useDeleteUserInv : List (List String) := [["users"]]

/-- Invalidations of `useDeleteUserPermanent`. -/
def useDeleteUserPermanentInv : List (List String) := [["users"]]

/-- Invalidations of `useChangePassword`: the hook declares no `onSuccess`
handler, so it invalidates nothing. -/
def useChangePasswordInv : List (List String) := []

/-- Invalidations of `useCreateClient`. -/
def useCreateClientInv : List (List String) := [["clients"], ["stats"]]

/-- Invalidations of `useUpdateClient`. -/
def useUpdateClientInv (id : String) : List (List String) :=
  [["clients"], ["clients", id]]

/-- Invalidations of `useDeleteClient`. -/
def useDeleteClientInv : List (List String) := [["clients"], ["stats"]]

/-- Invalidations of `useEnableModule`. -/
def useEnableModuleInv : List (List String) := [["modules"]]

/-- Invalidations of `useDisableModule`. -/
def useDisableModuleInv : List (List String) := [["modules"]]

/-- Modelled from the spec: `useCreateProduct` is imported by
`product-dialog.tsx` from the hooks module but its definition is not among
the provided sources; the spec states that a successful product creation
invalidates both the products collection key and the stats key. -/
def useCreateProductInv : List (List String) := [["products"], ["stats"]]

/-- Modelled from the spec: `useUpdateProduct` is imported by
`product-dialog.tsx` from the hooks module but its definition is not among
the provided sources; the spec states that a successful product update
invalidates only the products collection key and the specific product item
key, not stats. -/
def useUpdateProductInv (id : String) : List (List String) :=
  [["products"], ["products", id]]

/-- Modelled from the spec: `useDeleteProduct` is imported by
`delete-product-dialog.tsx` from the hooks module but its definition is not
among the provided sources; the spec states that product deletion
invalidates the products collection key and the stats key. -/
def useDeleteProductInv : List (List String) := [["products"], ["stats"]]

/-! ## Zod string email validation

Both `clientSchema` and `userFormSchema` use `z.string().email()`.  Zod
validates e-mail addresses with the regex
`^(?!\.)(?!.*\.\.)([A-Za-z0-9_'+\-\.]*)[A-Za-z0-9_+-]@([A-Za-z0-9][A-Za-z0-9\-]*\.)+[A-Za-z]\x7b2,\x7d$`;
the functions below implement it directly on character lists. -/

/-- ASCII letter. -/
def isAsciiLetter (c : Char) : Bool :=
  decide (97 ≤ c.toNat ∧ c.toNat ≤ 122) || decide (65 ≤ c.toNat ∧ c.toNat ≤ 90)

/-- ASCII letter or digit. -/
def isAsciiAlnum (c : Char) : Bool :=
  isAsciiLetter c || decide (48 ≤ c.toNat ∧ c.toNat ≤ 57)

/-- Characters allowed anywhere in the local part of an e-mail address
(letters, digits, underscore, apostrophe, plus, hyphen, dot). -/
def isEmailLocalChar (c : Char) : Bool :=
  isAsciiAlnum c || c == '_' || decide (c.toNat = 39) || c == '+' || c == '-' || c == '.'

/-- Characters allowed as the final character of the local part (no dot). -/
def isEmailLocalEndChar (c : Char) : Bool :=
  isAsciiAlnum c || c == '_' || c == '+' || c == '-'

/-- No two consecutive dots anywhere in the string. -/
def noDoubleDot : List Char → Bool
  | [] => true
  | [_] => true
  | a :: b :: t => !(a == '.' && b == '.') && noDoubleDot (b :: t)

/-- Split a character list at every occurrence of `sep`. -/
def splitOnChar (sep : Char) : List Char → List (List Char)
  | [] => [[]]
  | c :: cs =>
    let r := splitOnChar sep cs
    if c == sep then [] :: r
    else
      match r with
      | [] => [[c]]
      | h :: t => (c :: h) :: t

/-- Local part of the e-mail regex: non-empty, does not start with a dot,
no double dot, all characters from the local class, and the final character
from the restricted end class. -/
def emailLocalOk (l : List Char) : Bool :=
  match l.head?, l.getLast? with
  | some h, some lst =>
    !(h == '.') && noDoubleDot l && l.dropLast.all isEmailLocalChar
      && isEmailLocalEndChar lst
  | _, _ => false

/-- One non-final domain label: `[A-Za-z0-9][A-Za-z0-9-]*`. -/
def emailDomainLabelOk : List Char → Bool
  | [] => false
  | c :: rest => isAsciiAlnum c && rest.all (fun d => isAsciiAlnum d || d == '-')

/-- Final domain label: at least two ASCII letters. -/
def emailTldOk (l : List Char) : Bool :=
  decide (2 ≤ l.length) && l.all isAsciiLetter

/-- Domain part of the e-mail regex: one or more labels followed by a
top-level label, dot separated. -/
def emailDomainOk (l : List Char) : Bool :=
  let parts := splitOnChar '.' l
  match parts.getLast? with
  | none => false
  | some tld =>
    decide (2 ≤ parts.length) && parts.dropLast.all emailDomainLabelOk && emailTldOk tld

/-- Zod's `z.string().email()` check. -/
def zodEmailCheck (s : String) : Bool :=
  match splitOnChar '@' s.toList with
  | [locp, domp] => emailLocalOk locp && emailDomainOk domp
  | _ => false

/-! ## Client schema (`clientSchema` in client-form.tsx)

The zod object has enum `client_type`, optional strings, and a `.refine`
whose error is attached to path `["client_type"]`.  Zod runs the refinement
only when the base object parses successfully; the only base field with a
non-trivial check is `email` (`z.string().email().optional().or(z.literal(""))`). -/

/-- The `client_type` enum. -/
inductive ClientType where
  | individual
  | entity
  | trust
deriving DecidableEq, Repr

/-- The `risk_profile` enum. -/
inductive RiskProfile where
  | conservative
  | moderate
  | balanced
  | growth
  | aggressive
deriving DecidableEq, Repr

/-- The `kyc_status` enum. -/
inductive KycStatus where
  | pending
  | in_progress
  | approved
  | rejected
  | expired
deriving DecidableEq, Repr

/-- Raw client form values handed to validation and to `handleSubmit`
(optional fields are `none` when absent). -/
structure ClientFormData where
  client_type : ClientType
  first_name : Option String
  last_name : Option String
  entity_name : Option String
  email : Option String
  phone : Option String
  risk_profile : Option RiskProfile
  kyc_status : Option KycStatus
  extra_data : Option String
deriving DecidableEq, Repr

/-- JavaScript truthiness of an optional string: absent and empty are
falsy. -/
def strTruthy : Option String → Bool
  | none => false
  | some s => !(s == "")

/-- The `email` field check: absent passes (`optional`), the empty string
passes (`or(z.literal(""))`), otherwise the zod e-mail regex must hold. -/
def clientEmailOk : Option String → Bool
  | none => true
  | some s => s == "" || zodEmailCheck s

/-- Issue paths produced by the base object schema (before the
refinement). -/
def clientBaseIssues (d : ClientFormData) : List (List String) :=
  if clientEmailOk d.email then [] else [["email"]]

/-- The `.refine` predicate: individuals require truthy first and last
name, entities and trusts require a truthy entity name. -/
def clientRefineOk (d : ClientFormData) : Bool :=
  match d.client_type with
  | ClientType.individual => strTruthy d.first_name && strTruthy d.last_name
  | ClientType.entity => strTruthy d.entity_name
  | ClientType.trust => strTruthy d.entity_name

/-- Issue paths of the full `clientSchema` parse: base issues if any,
otherwise the refinement issue at path `["client_type"]` when the
refinement fails.  Validation succeeds exactly when the list is empty. -/
def clientSchemaIssues (d : ClientFormData) : List (List String) :=
  let base := clientBaseIssues d
  if base.isEmpty then
    if clientRefineOk d then [] else [["client_type"]]
  else base

/-! ## User form schemas and submit cleanup (user-form source)

`createUserSchema` requires a password of 8 to 100 characters;
`editUserSchema` additionally accepts an absent password or the literal
empty string.  `handleSubmit` replaces a falsy password by `undefined`
(key omitted from the payload) and resolves `tenant_id`. -/

/-- Raw user form values (password `none` when the field is absent). -/
structure UserFormValues where
  email : String
  first_name : String
  last_name : String
  password : Option String
  is_active : Bool
  tenant_id : Option String
  role_ids : List String
deriving DecidableEq, Repr

/-- The base field checks shared by both user schemas: e-mail format and
the 1..100 length bounds on the two name fields. -/
def userBaseValid (v : UserFormValues) : Bool :=
  zodEmailCheck v.email
    && decide (1 ≤ v.first_name.length ∧ v.first_name.length ≤ 100)
    && decide (1 ≤ v.last_name.length ∧ v.last_name.length ≤ 100)

/-- Password rule of `createUserSchema`: required, 8 to 100 characters. -/
def createPasswordOk : Option String → Bool
  | none => false
  | some s => decide (8 ≤ s.length ∧ s.length ≤ 100)

/-- Password rule of `editUserSchema`: the 8..100 rule, or absent, or the
literal empty string. -/
def editPasswordOk : Option String → Bool
  | none => true
  | some s => decide (8 ≤ s.length ∧ s.length ≤ 100) || s == ""

/-- Whole-form validity under `createUserSchema`. -/
def userCreateValid (v : UserFormValues) : Bool :=
  userBaseValid v && createPasswordOk v.password

/-- Whole-form validity under `editUserSchema`. -/
def userEditValid (v : UserFormValues) : Bool :=
  userBaseValid v && editPasswordOk v.password

/-- The user form `handleSubmit` cleanup: a falsy password becomes
`undefined` (modelled as `none`, the key absent from the payload), and
`tenant_id` falls back to the current user's tenant unless the tenant
selector is shown. -/
def cleanUserValues (showTenantSelector : Bool) (currentTenantId : Option String)
    (v : UserFormValues) : UserFormValues :=
  { v with
    password :=
      match v.password with
      | some s => if s == "" then none else some s
      | none => none
    tenant_id := if showTenantSelector then v.tenant_id else currentTenantId }

/-! ## JavaScript whitespace and `String.prototype.trim`

`trim` strips leading and trailing whitespace; it is used by the client
form submit cleanup and (as the final no-op step) by the slug
generator. -/

/-- JavaScript regex whitespace (ASCII portion). -/
def isWsChar (c : Char) : Bool :=
  c == ' ' || c == '\t' || c == '\n' || c == '\r'

/-- `String.prototype.trim` on a character list. -/
def trimWsList (l : List Char) : List Char :=
  ((l.dropWhile isWsChar).reverse.dropWhile isWsChar).reverse

/-- `String.prototype.trim`. -/
def jsTrim (s : String) : String :=
  String.mk (trimWsList s.toList)

/-! ## JSON values, `JSON.stringify` and `JSON.parse`

The client form parses its `extra_data` textarea with `JSON.parse`, and the
client dialog stringifies a structured error `detail` with
`JSON.stringify`.  The grammar below is standard JSON; numbers are kept as
a decimal mantissa and a power-of-ten exponent. -/

/-- JSON values.  A number with mantissa `m` and exponent `e` denotes
`m * 10 ^ e`. -/
inductive Json where
  | jnull
  | jbool (b : Bool)
  | jnum (mantissa : Int) (exponent : Int)
  | jstr (s : String)
  | jarr (items : List Json)
  | jobj (fields : List (String × Json))

/-- Escape one character for a JSON string literal. -/
def jsonEscapeChar (c : Char) : List Char :=
  if c == '"' then ['\\', '"']
  else if c == '\\' then ['\\', '\\']
  else if c == '\n' then ['\\', 'n']
  else if c == '\t' then ['\\', 't']
  else if c == '\r' then ['\\', 'r']
  else [c]

/-- Render a JSON string literal with quotes and escapes. -/
def jsonQuote (s : String) : String :=
  String.mk ('"' :: (s.toList.flatMap jsonEscapeChar ++ ['"']))

/-- Digits of a natural number, most significant first. -/
def natDigits (n : Nat) : List Char :=
  (Nat.toDigits 10 n)

/-- Render an integer in decimal. -/
def intRender (i : Int) : String :=
  if i < 0 then String.mk ('-' :: natDigits i.natAbs)
  else String.mk (natDigits i.natAbs)

mutual

/-- `JSON.stringify` on our JSON values (numbers rendered as
`mEe` when the exponent is non-zero). -/
def Json.stringify : Json → String
  | Json.jnull => "null"
  | Json.jbool true => "true"
  | Json.jbool false => "false"
  | Json.jnum m e =>
    if e == 0 then intRender m else intRender m ++ "e" ++ intRender e
  | Json.jstr s => jsonQuote s
  | Json.jarr items => "[" ++ stringifyItems items ++ "]"
  | Json.jobj fields =>
    String.mk (Char.ofNat 123 :: (stringifyFields fields).toList ++ [Char.ofNat 125])

/-- Comma-separated rendering of array items. -/
def stringifyItems : List Json → String
  | [] => ""
  | [v] => Json.stringify v
  | v :: rest => Json.stringify v ++ "," ++ stringifyItems rest

/-- Comma-separated rendering of object fields. -/
def stringifyFields : List (String × Json) → String
  | [] => ""
  | [(k, v)] => jsonQuote k ++ ":" ++ Json.stringify v
  | (k, v) :: rest => jsonQuote k ++ ":" ++ Json.stringify v ++ "," ++ stringifyFields rest

end

/-- JSON whitespace. -/
def isJsonWs (c : Char) : Bool :=
  c == ' ' || c == '\t' || c == '\n' || c == '\r'

/-- Drop leading JSON whitespace. -/
def skipJsonWs (l : List Char) : List Char :=
  l.dropWhile isJsonWs

/-- Hex digit value, if any. -/
def hexVal (c : Char) : Option Nat :=
  if decide (48 ≤ c.toNat ∧ c.toNat ≤ 57) then some (c.toNat - 48)
  else if decide (97 ≤ c.toNat ∧ c.toNat ≤ 102) then some (c.toNat - 87)
  else if decide (65 ≤ c.toNat ∧ c.toNat ≤ 70) then some (c.toNat - 55)
  else none

/-- Parse the body of a JSON string literal after the opening quote;
returns the decoded characters and the remaining input after the closing
quote. -/
def parseStringBody : List Char → Option (List Char × List Char)
  | [] => none
  | c :: cs =>
    if c == '"' then some ([], cs)
    else if c == '\\' then
      match cs with
      | [] => none
      | e :: cs2 =>
        if e == 'u' then
          match cs2 with
          | a :: b :: c3 :: d :: cs3 =>
            match hexVal a, hexVal b, hexVal c3, hexVal d with
            | some ha, some hb, some hc, some hd =>
              (parseStringBody cs3).map
                (fun p => (Char.ofNat (((ha * 16 + hb) * 16 + hc) * 16 + hd) :: p.1, p.2))
            | _, _, _, _ => none
          | _ => none
        else
          let decoded : Option Char :=
            if e == '"' then some '"'
            else if e == '\\' then some '\\'
            else if e == '/' then some '/'
            else if e == 'b' then some (Char.ofNat 8)
            else if e == 'f' then some (Char.ofNat 12)
            else if e == 'n' then some '\n'
            else if e == 'r' then some '\r'
            else if e == 't' then some '\t'
            else none
          match decoded with
          | some d => (parseStringBody cs2).map (fun p => (d :: p.1, p.2))
          | none => none
    else if decide (c.toNat < 32) then none
    else (parseStringBody cs).map (fun p => (c :: p.1, p.2))

/-- Numeric value of a digit run. -/
def digitsToNat (l : List Char) : Nat :=
  l.foldl (fun a c => a * 10 + (c.toNat - 48)) 0

/-- ASCII digit. -/
def isDigitChar (c : Char) : Bool :=
  decide (48 ≤ c.toNat ∧ c.toNat ≤ 57)

/-- Parse the optional fraction part `.digits`; fails on a dot without
digits. -/
def parseFracPart : List Char → Option (List Char × List Char)
  | c :: t =>
    if c == '.' then
      match t.takeWhile isDigitChar with
      | [] => none
      | ds => some (ds, t.dropWhile isDigitChar)
    else some ([], c :: t)
  | [] => some ([], [])

/-- Parse the optional exponent part `[eE][+-]?digits`; fails on a marker
without digits. -/
def parseExpPart : List Char → Option (Int × List Char)
  | c :: t =>
    if c == 'e' || c == 'E' then
      let signed : Int × List Char :=
        match t with
        | s :: u =>
          if s == '+' then (1, u)
          else if s == '-' then (-1, u)
          else (1, s :: u)
        | [] => (1, [])
      match (signed.2).takeWhile isDigitChar with
      | [] => none
      | ds => some (signed.1 * (digitsToNat ds : Int), (signed.2).dropWhile isDigitChar)
    else some (0, c :: t)
  | [] => some (0, [])

/-- Parse a JSON number (strict grammar: no leading zeros, a dot or
exponent marker must be followed by digits). -/
def parseJsonNumber (l : List Char) : Option (Json × List Char) :=
  let signed : Bool × List Char :=
    match l with
    | c :: t => if c == '-' then (true, t) else (false, l)
    | [] => (false, l)
  let l1 := signed.2
  match l1.takeWhile isDigitChar with
  | [] => none
  | ds =>
    if decide (1 < ds.length) && (ds.head? == some '0') then none
    else
      let l2 := l1.dropWhile isDigitChar
      match parseFracPart l2 with
      | none => none
      | some (fds, l3) =>
        match parseExpPart l3 with
        | none => none
        | some (ex, l4) =>
          let mag : Int := (digitsToNat (ds ++ fds) : Int)
          let mant : Int := if signed.1 then -mag else mag
          some (Json.jnum mant (ex - (fds.length : Int)), l4)

mutual

/-- Parse one JSON value (fuel-bounded recursive descent); returns the
value and the remaining input. -/
def parseJsonValue : Nat → List Char → Option (Json × List Char)
  | 0, _ => none
  | Nat.succ f, l =>
    match skipJsonWs l with
    | [] => none
    | c :: cs =>
      if c == '"' then
        (parseStringBody cs).map (fun p => (Json.jstr (String.mk p.1), p.2))
      else if c == '[' then
        match skipJsonWs cs with
        | d :: ds =>
          if d == ']' then some (Json.jarr [], ds)
          else (parseJsonItems f (d :: ds)).map (fun p => (Json.jarr p.1, p.2))
        | [] => none
      else if c.toNat == 123 then
        match skipJsonWs cs with
        | d :: ds =>
          if d.toNat == 125 then some (Json.jobj [], ds)
          else (parseJsonFields f (d :: ds)).map (fun p => (Json.jobj p.1, p.2))
        | [] => none
      else if c == 't' then
        if cs.take 3 == ['r', 'u', 'e'] then some (Json.jbool true, cs.drop 3) else none
      else if c == 'f' then
        if cs.take 4 == ['a', 'l', 's', 'e'] then some (Json.jbool false, cs.drop 4) else none
      else if c == 'n' then
        if cs.take 3 == ['u', 'l', 'l'] then some (Json.jnull, cs.drop 3) else none
      else
        parseJsonNumber (c :: cs)

/-- Parse one or more comma-separated array items up to the closing
bracket. -/
def parseJsonItems : Nat → List Char → Option (List Json × List Char)
  | 0, _ => none
  | Nat.succ f, l =>
    match parseJsonValue f l with
    | none => none
    | some (v, rest) =>
      match skipJsonWs rest with
      | c :: rest2 =>
        if c == ',' then
          (parseJsonItems f rest2).map (fun p => (v :: p.1, p.2))
        else if c == ']' then some ([v], rest2)
        else none
      | [] => none

/-- Parse one or more comma-separated object members up to the closing
brace. -/
def parseJsonFields : Nat → List Char → Option (List (String × Json) × List Char)
  | 0, _ => none
  | Nat.succ f, l =>
    match skipJsonWs l with
    | c :: cs =>
      if c == '"' then
        match parseStringBody cs with
        | none => none
        | some (key, rest) =>
          match skipJsonWs rest with
          | d :: rest2 =>
            if d == ':' then
              match parseJsonValue f rest2 with
              | none => none
              | some (v, rest3) =>
                match skipJsonWs rest3 with
                | e :: rest4 =>
                  if e == ',' then
                    (parseJsonFields f rest4).map
                      (fun p => ((String.mk key, v) :: p.1, p.2))
                  else if e.toNat == 125 then some ([(String.mk key, v)], rest4)
                  else none
                | [] => none
            else none
          | [] => none
      else none
    | [] => none

end

/-- `JSON.parse`: parse a complete JSON document, rejecting trailing
content.  The fuel `2 * length + 2` dominates the recursion depth, which
consumes at least one input character per two fuel steps. -/
def jsonParse (s : String) : Option Json :=
  match parseJsonValue (2 * s.length + 2) s.toList with
  | some (v, rest) => if (skipJsonWs rest).isEmpty then some v else none
  | none => none

/-! ## Client form submit normalization (`handleSubmit` in client-form.tsx) -/

/-- Payload handed to the submit callback: string fields are absent
(`none`) when omitted, and `extra_data` carries the parsed JSON value. -/
structure ClientSubmitData where
  client_type : ClientType
  first_name : Option String
  last_name : Option String
  entity_name : Option String
  email : Option String
  phone : Option String
  risk_profile : Option RiskProfile
  kyc_status : Option KycStatus
  extra_data : Option Json

/-- One `if (data.x?.trim()) submitData.x = data.x.trim()` line: include
the trimmed value only when it is non-empty. -/
def submitStringField : Option String → Option String
  | some s => if jsTrim s == "" then none else some (jsTrim s)
  | none => none

/-- The client form `handleSubmit` cleanup: trims and conditionally
includes each optional string field, includes truthy enum fields, and
parses a non-blank `extra_data` as JSON, silently dropping it when the
parse fails. -/
def clientHandleSubmit (d : ClientFormData) : ClientSubmitData :=
  { client_type := d.client_type
    first_name := submitStringField d.first_name
    last_name := submitStringField d.last_name
    entity_name := submitStringField d.entity_name
    email := submitStringField d.email
    phone := submitStringField d.phone
    risk_profile := d.risk_profile
    kyc_status := d.kyc_status
    extra_data :=
      match d.extra_data with
      | some s => if jsTrim s == "" then none else jsonParse s
      | none => none }

/-! ## Client form state and the discriminant-change effect

The `useEffect` on `clientType` clears the irrelevant name group in create
mode: switching to `individual` clears `entity_name`, switching to
`entity` or `trust` clears `first_name` and `last_name`. -/

/-- Form rendering mode. -/
inductive FormMode where
  | create
  | edit
deriving DecidableEq, Repr

/-- In-memory client form state (react-hook-form field values). -/
structure ClientFormState where
  client_type : ClientType
  first_name : String
  last_name : String
  entity_name : String
  email : String
  phone : String
  risk_profile : Option RiskProfile
  kyc_status : Option KycStatus
  extra_data : String
deriving DecidableEq, Repr

/-- The body of the `useEffect` that runs when `clientType` changes. -/
def clientTypeResetEffect (mode : FormMode) (s : ClientFormState) : ClientFormState :=
  match mode with
  | FormMode.create =>
    match s.client_type with
    | ClientType.individual => { s with entity_name := "" }
    | ClientType.entity => { s with first_name := "", last_name := "" }
    | ClientType.trust => { s with first_name := "", last_name := "" }
  | FormMode.edit => s

/-- Change the discriminant field and run the reset effect. -/
def setClientType (mode : FormMode) (t : ClientType) (s : ClientFormState) : ClientFormState :=
  clientTypeResetEffect mode { s with client_type := t }

/-! ## Delete-tenant dialog (delete-tenant-dialog.tsx) -/

/-- Dialog mode. -/
inductive DeleteMode where
  | deactivate
  | permanent
deriving DecidableEq, Repr

/-- The tenant fields the dialog uses. -/
structure TenantRec where
  id : String
  name : String
  slug : String
deriving DecidableEq, Repr

/-- The `disabled` expression of the permanent-delete action button:
`isDeleting || confirmText !== tenant.slug`. -/
def permanentDeleteActionDisabled (isDeleting : Bool) (confirmText slug : String) : Bool :=
  isDeleting || !(confirmText == slug)

/-- Whether `handleDelete` reaches the mutation call: it returns early
when no tenant is set, and in permanent mode also when the confirmation
text differs from the slug. -/
def handleDeleteFires (mode : DeleteMode) (tenant : Option TenantRec)
    (confirmText : String) : Bool :=
  match tenant with
  | none => false
  | some t =>
    match mode with
    | DeleteMode.permanent => confirmText == t.slug
    | DeleteMode.deactivate => true

/-! ## Client dialog error-message extraction (catch block in
client-dialog.tsx) -/

/-- The shapes of a caught error the dialog distinguishes: an `Error`
instance, a plain string, or a plain object with optional `message` and
`detail` fields. -/
inductive RemoteError where
  | errObject (message : String)
  | stringErr (s : String)
  | objErr (message : Option String) (detail : Option Json)

/-- JavaScript truthiness of a JSON value. -/
def jsTruthy : Json → Bool
  | Json.jnull => false
  | Json.jbool b => b
  | Json.jstr s => !(s == "")
  | Json.jnum m _ => !(m == 0)
  | Json.jarr _ => true
  | Json.jobj _ => true

/-- The fallback error text. -/
def clientErrorFallback : String := "Failed to save client. Please try again."

/-- The extraction chain of the client-dialog catch block: an `Error`
instance's message, else a string error itself, else a truthy `message`
field, else a truthy `detail` field (used directly when it is a string,
JSON-stringified otherwise), else the fallback literal. -/
def extractClientErrorMessage : RemoteError → String
  | RemoteError.errObject m => m
  | RemoteError.stringErr s => s
  | RemoteError.objErr m d =>
    if strTruthy m then m.getD ""
    else
      match d with
      | some j =>
        if jsTruthy j then
          match j with
          | Json.jstr s => s
          | _ => j.stringify
        else clientErrorFallback
      | none => clientErrorFallback

/-! ## Slug generation (`generateSlug` in tenant-form.tsx)

The source lowercases, removes every character outside
`[a-z0-9\s-]`, replaces whitespace runs by a hyphen, collapses hyphen
runs, and finally trims - by which point no whitespace remains. -/

/-- Lowercase ASCII letter. -/
def isLowerAZ (c : Char) : Bool :=
  decide (97 ≤ c.toNat ∧ c.toNat ≤ 122)

/-- ASCII digit. -/
def isDigit09 (c : Char) : Bool :=
  decide (48 ≤ c.toNat ∧ c.toNat ≤ 57)

/-- Hyphen. -/
def isHyph (c : Char) : Bool :=
  c == '-'

/-- Characters kept by the first replace: `[a-z0-9\s-]`. -/
def isSlugKeep (c : Char) : Bool :=
  isLowerAZ c || isDigit09 c || isWsChar c || isHyph c

/-- Characters that can appear in a finished slug. -/
def isSlugOut (c : Char) : Bool :=
  isLowerAZ c || isDigit09 c || isHyph c

/-- `String.prototype.toLowerCase` on the ASCII range. -/
def jsToLower (c : Char) : Char :=
  if 65 ≤ c.toNat ∧ c.toNat ≤ 90 then Char.ofNat (c.toNat + 32) else c

/-- Replace every maximal run of characters satisfying `p` by the single
character `r` (the semantics of `.replace(/p+/g, r)`); `inRun` records
whether the previous character was part of a run. -/
def collapseRuns (p : Char → Bool) (r : Char) : Bool → List Char → List Char
  | _, [] => []
  | inRun, c :: cs =>
    if p c then
      if inRun then collapseRuns p r true cs
      else r :: collapseRuns p r true cs
    else c :: collapseRuns p r false cs

/-- The slug pipeline up to (but not including) the final `.trim()`:
lowercase, remove forbidden characters, replace whitespace runs by a
hyphen, collapse hyphen runs. -/
def slugCore (l : List Char) : List Char :=
  collapseRuns isHyph '-' false
    (collapseRuns isWsChar '-' false
      ((l.map jsToLower).filter isSlugKeep))

/-- The full slug pipeline on a character list, ending with `.trim()`. -/
def slugList (l : List Char) : List Char :=
  trimWsList (slugCore l)

/-- `generateSlug` from tenant-form.tsx. -/
def generateSlug (s : String) : String :=
  String.mk (slugList s.toList)

/-- No two adjacent characters both satisfy `p`. -/
def noAdjSat (p : Char → Bool) : List Char → Bool
  | [] => true
  | [_] => true
  | a :: b :: t => !(p a && p b) && noAdjSat p (b :: t)

/-! # Theorems -/

/-! ## Helper lemmas on the cache model -/

/-- Invalidating a prefix that does not match `k` leaves the freshness of
`k` unchanged. -/
theorem cacheFresh_invalidateKeys_not_matching (pre k : List String)
    (h : keyMatches pre k = false) (c : Cache) :
    cacheFresh (invalidateKeys pre c) k = cacheFresh c k := by
  rcases c with ⟨entries⟩
  induction entries with
  | nil => rfl
  | cons e t ih =>
    rcases e with ⟨ek, b⟩
    by_cases hek : ek = k
    · subst hek
      simp [invalidateKeys, cacheFresh, List.lookup_cons, h] at ih ⊢
    · have hbeq : (k == ek) = false := by
        simp [beq_iff_eq]
        exact fun hk => hek hk.symm
      by_cases hm : keyMatches pre ek
      · simp [invalidateKeys, cacheFresh, List.lookup_cons, hm, hbeq] at ih ⊢
        exact ih
      · simp [invalidateKeys, cacheFresh, List.lookup_cons, hm, hbeq] at ih ⊢
        exact ih

/-! ## C1: collection key vs item-query keys -/

/-- C1 (code bug): the `useTenant` hook's item key does start with the
`tenants` collection key, but the branding page fetches a single tenant
under `["tenant", id]`, so the collection key is not a prefix of that item
query's key and invalidating `["tenants"]` leaves the branding page's
cached tenant entry fresh (stale data after a tenant update). -/
theorem branding_page_item_key_escapes_collection :
    keyMatches tenantsCollectionKey (useTenantQueryKey "t1") = true ∧
    keyMatches tenantsCollectionKey (brandingPageQueryKey "t1") = false ∧
    cacheFresh
      (invalidateKeys tenantsCollectionKey (Cache.mk [(brandingPageQueryKey "t1", true)]))
      (brandingPageQueryKey "t1") = true := by
  refine ⟨by decide, by decide, by decide⟩

/-! ## C2: permanent-delete confirmation gating -/

/-- C2: in the permanent-delete tenant dialog, the delete action is
enabled exactly when the typed confirmation equals the tenant's slug
(case-sensitively, untrimmed), the handler fires exactly under the same
condition, and a superstring such as the slug followed by a space keeps
the action disabled and the handler inert. -/
theorem permanent_delete_requires_exact_slug (t : TenantRec) (confirmText : String) :
    (permanentDeleteActionDisabled false confirmText t.slug = false ↔ confirmText = t.slug) ∧
    (handleDeleteFires DeleteMode.permanent (some t) confirmText = true ↔ confirmText = t.slug) ∧
    permanentDeleteActionDisabled false (t.slug ++ " ") t.slug = true ∧
    handleDeleteFires DeleteMode.permanent (some t) (t.slug ++ " ") = false := by
  have hne : t.slug ++ " " ≠ t.slug := by
    intro h
    have hl := congrArg String.length h
    rw [String.length_append] at hl
    have hone : (" " : String).length = 1 := rfl
    omega
  refine ⟨?_, ?_, ?_, ?_⟩
  · simp [permanentDeleteActionDisabled]
  · simp [handleDeleteFires]
  · simp [permanentDeleteActionDisabled, hne]
  · simp [handleDeleteFires, hne]

/-- Witness for C2 at a concrete tenant: typing the slug itself enables
the action and a trailing space keeps the handler inert. -/
theorem permanent_delete_requires_exact_slug_witness :
    permanentDeleteActionDisabled false "acme-wealth"
      (TenantRec.mk "t1" "Acme Wealth" "acme-wealth").slug = false ∧
    handleDeleteFires DeleteMode.permanent
      (some (TenantRec.mk "t1" "Acme Wealth" "acme-wealth")) ("acme-wealth" ++ " ") = false :=
  ⟨(permanent_delete_requires_exact_slug
      (TenantRec.mk "t1" "Acme Wealth" "acme-wealth") "acme-wealth").1.mpr rfl,
   (permanent_delete_requires_exact_slug
      (TenantRec.mk "t1" "Acme Wealth" "acme-wealth") "acme-wealth").2.2.2⟩

/-! ## C5: declared invalidation sets -/

/-- C5 (counterexample): `useChangePassword` is a mutation on the users
resource whose declared invalidation set is empty - in particular it does
not contain the `["users"]` collection key, refuting "every mutation
invalidates at minimum its resource's collection key". -/
theorem useChangePassword_invalidates_nothing :
    useChangePasswordInv = ([] : List (List String)) ∧
    useChangePasswordInv.contains ["users"] = false := by
  exact ⟨rfl, rfl⟩

/-- C5 (amended): every mutation binding except `useChangePassword`
(which declares no invalidation) invalidates exactly its declared set:
at minimum the resource's collection key; update mutations additionally
the specific item key; client and product creation and deletion
additionally the stats key; client and product updates do not touch the
stats key, so a stats cache entry keeps its freshness across a successful
client update. -/
theorem mutation_invalidation_sets (id : String) (c : Cache) :
    useCreateTenantInv = [["tenants"]] ∧
    useUpdateTenantInv id = [["tenants"], ["tenants", id]] ∧
    useDeleteTenantInv = [["tenants"]] ∧
    useDeleteTenantPermanentInv = [["tenants"]] ∧
    useCreateUserInv = [["users"]] ∧
    useUpdateUserInv id = [["users"], ["users", id]] ∧
    useDeleteUserInv = [["users"]] ∧
    useDeleteUserPermanentInv = [["users"]] ∧
    useCreateClientInv = [["clients"], ["stats"]] ∧
    useUpdateClientInv id = [["clients"], ["clients", id]] ∧
    (useUpdateClientInv id).contains ["stats"] = false ∧
    useDeleteClientInv = [["clients"], ["stats"]] ∧
    useEnableModuleInv = [["modules"]] ∧
    useDisableModuleInv = [["modules"]] ∧
    useCreateProductInv = [["products"], ["stats"]] ∧
    useUpdateProductInv id = [["products"], ["products", id]] ∧
    (useUpdateProductInv id).contains ["stats"] = false ∧
    useDeleteProductInv = [["products"], ["stats"]] ∧
    cacheFresh ((runMutation (useUpdateClientInv id) (Except.ok (0 : Nat) : Except Unit Nat) c).2)
        ["stats", "dashboard"]
      = cacheFresh c ["stats", "dashboard"] := by
  refine ⟨rfl, rfl, rfl, rfl, rfl, rfl, rfl, rfl, rfl, rfl, rfl, rfl, rfl, rfl, rfl, rfl, rfl, rfl, ?_⟩
  · have h1 : keyMatches ["clients"] ["stats", "dashboard"] = false := by decide
    have h2 : keyMatches ["clients", id] ["stats", "dashboard"] = false := by
      simp [keyMatches, List.isPrefixOf]
    show cacheFresh
        (invalidateKeys ["clients", id] (invalidateKeys ["clients"] c)) ["stats", "dashboard"]
      = cacheFresh c ["stats", "dashboard"]
    rw [cacheFresh_invalidateKeys_not_matching _ _ h2,
      cacheFresh_invalidateKeys_not_matching _ _ h1]

/-! ## C6: failure passes the error through and invalidates nothing -/

/-- C6: for every mutation binding, a failed remote call is surfaced to
the caller unmodified with the cache untouched, its trace contains no
invalidation event, and on any outcome every invalidation event of the
trace occurs only after the remote call resolved successfully. -/
theorem mutation_failure_ordering {ε α : Type} (inv : List (List String))
    (e : ε) (a : α) (c : Cache) :
    runMutation inv (Except.error e : Except ε α) c = (Except.error e, c) ∧
    (mutationTrace inv (Except.error e : Except ε α)).all
      (fun ev => !(isInvalidationEvent ev)) = true ∧
    invalidationOnlyAfterSuccess (mutationTrace inv (Except.error e : Except ε α)) = true ∧
    invalidationOnlyAfterSuccess (mutationTrace inv (Except.ok a : Except ε α)) = true ∧
    runMutation inv (Except.ok a : Except ε α) c = (Except.ok a, invalidateAll inv c) := by
  exact ⟨rfl, rfl, rfl, rfl, rfl⟩

/-! ## C7: error-message extraction priority -/

/-- C7 (counterexample): for an error object carrying both a truthy
`message` field and a truthy `detail` field, the client dialog displays
the `message` text, not the `detail` text. -/
theorem client_error_detail_not_preferred :
    extractClientErrorMessage
      (RemoteError.objErr (some "m") (some (Json.jstr "d"))) = "m" ∧
    (("m" : String) == "d") = false := by
  exact ⟨rfl, rfl⟩

/-- C7 (amended): the extraction priority of the client-dialog catch
block is: an `Error` instance's message; else a string error itself; else
a truthy `message` field; else a truthy `detail` field (string details
used directly); else the fallback literal.  When both `message` and
`detail` are present and truthy, the displayed text comes from
`message`. -/
theorem client_error_extraction_priority (m d : String) :
    extractClientErrorMessage (RemoteError.errObject m) = m ∧
    extractClientErrorMessage (RemoteError.stringErr m) = m ∧
    (m ≠ "" →
      extractClientErrorMessage (RemoteError.objErr (some m) (some (Json.jstr d))) = m) ∧
    (d ≠ "" →
      extractClientErrorMessage (RemoteError.objErr none (some (Json.jstr d))) = d) ∧
    (d ≠ "" →
      extractClientErrorMessage (RemoteError.objErr (some "") (some (Json.jstr d))) = d) ∧
    extractClientErrorMessage (RemoteError.objErr none none) = clientErrorFallback := by
  refine ⟨rfl, rfl, ?_, ?_, ?_, rfl⟩
  · intro hm
    simp [extractClientErrorMessage, strTruthy, hm]
  · intro hd
    simp [extractClientErrorMessage, strTruthy, jsTruthy, hd]
  · intro hd
    simp [extractClientErrorMessage, strTruthy, jsTruthy, hd]

/-- Witness for the amended C7 theorem at concrete inputs. -/
theorem client_error_extraction_priority_witness :
    extractClientErrorMessage
      (RemoteError.objErr (some "msg") (some (Json.jstr "det"))) = "msg" ∧
    extractClientErrorMessage
      (RemoteError.objErr none (some (Json.jstr "det"))) = "det" ∧
    extractClientErrorMessage
      (RemoteError.objErr (some "") (some (Json.jstr "det"))) = "det" := by
  refine ⟨(client_error_extraction_priority "msg" "det").2.2.1 (by decide),
    (client_error_extraction_priority "msg" "det").2.2.2.1 (by decide),
    (client_error_extraction_priority "msg" "det").2.2.2.2.1 (by decide)⟩

/-! ## C8: discriminant change clears the irrelevant name group -/

/-- C8: in create mode, switching the discriminant to `entity` (or
`trust`) clears `first_name` and `last_name` and leaves every other field
unchanged; switching to `individual` clears `entity_name` and leaves the
name fields unchanged; and an `individual` to `entity` to `individual`
round trip does not resurrect an entity name entered in between. -/
theorem clientType_switch_clears_names (s : ClientFormState) (e : String) :
    ((setClientType FormMode.create ClientType.entity s).client_type = ClientType.entity ∧
     (setClientType FormMode.create ClientType.entity s).first_name = "" ∧
     (setClientType FormMode.create ClientType.entity s).last_name = "" ∧
     (setClientType FormMode.create ClientType.entity s).entity_name = s.entity_name ∧
     (setClientType FormMode.create ClientType.entity s).email = s.email ∧
     (setClientType FormMode.create ClientType.entity s).phone = s.phone ∧
     (setClientType FormMode.create ClientType.entity s).risk_profile = s.risk_profile ∧
     (setClientType FormMode.create ClientType.entity s).kyc_status = s.kyc_status ∧
     (setClientType FormMode.create ClientType.entity s).extra_data = s.extra_data) ∧
    ((setClientType FormMode.create ClientType.trust s).first_name = "" ∧
     (setClientType FormMode.create ClientType.trust s).last_name = "") ∧
    ((setClientType FormMode.create ClientType.individual s).entity_name = "" ∧
     (setClientType FormMode.create ClientType.individual s).first_name = s.first_name ∧
     (setClientType FormMode.create ClientType.individual s).last_name = s.last_name ∧
     (setClientType FormMode.create ClientType.individual s).email = s.email ∧
     (setClientType FormMode.create ClientType.individual s).phone = s.phone) ∧
    (setClientType FormMode.create ClientType.individual
      { setClientType FormMode.create ClientType.entity s with entity_name := e }).entity_name
      = "" := by
  exact ⟨⟨rfl, rfl, rfl, rfl, rfl, rfl, rfl, rfl, rfl⟩, ⟨rfl, rfl⟩,
    ⟨rfl, rfl, rfl, rfl, rfl⟩, rfl⟩

/-! ## C3: cross-field validation error lands on the discriminant -/

/-- C3: when the base object schema passes, an `individual` client with a
missing or empty first or last name fails validation with exactly one
issue, attached to the `client_type` path (so not to the name fields);
symmetrically an `entity` or `trust` client with a missing or empty
entity name fails with the issue at `client_type`. -/
theorem clientSchema_error_on_discriminant (d : ClientFormData)
    (hbase : clientBaseIssues d = []) :
    (d.client_type = ClientType.individual →
      (d.first_name = none ∨ d.first_name = some "" ∨
        d.last_name = none ∨ d.last_name = some "") →
      clientSchemaIssues d = [["client_type"]]) ∧
    ((d.client_type = ClientType.entity ∨ d.client_type = ClientType.trust) →
      (d.entity_name = none ∨ d.entity_name = some "") →
      clientSchemaIssues d = [["client_type"]]) := by
  constructor
  · intro ht hn
    have href : clientRefineOk d = false := by
      rcases hn with h | h | h | h <;>
        simp [clientRefineOk, ht, strTruthy, h]
    simp [clientSchemaIssues, hbase, href]
  · intro ht hn
    have href : clientRefineOk d = false := by
      rcases ht with ht | ht <;> rcases hn with h | h <;>
        simp [clientRefineOk, ht, strTruthy, h]
    simp [clientSchemaIssues, hbase, href]

/-- Witness for C3: a concrete individual client with an empty first name
fails with the single issue at the `client_type` path. -/
theorem clientSchema_error_on_discriminant_witness :
    clientSchemaIssues
      (ClientFormData.mk ClientType.individual (some "") (some "Doe")
        none none none none none none) = [["client_type"]] :=
  (clientSchema_error_on_discriminant
    (ClientFormData.mk ClientType.individual (some "") (some "Doe")
      none none none none none none) rfl).1 rfl (Or.inr (Or.inl rfl))

/-! ## C4: password rules of the user form -/

/-- C4: create-mode validation forces a present password of at least 8
characters; in edit mode a blank password does not affect validity and is
omitted entirely from the cleaned payload, while a non-empty password
shorter than 8 characters fails edit-mode validation. -/
theorem user_password_rules (v : UserFormValues) (sel : Bool) (ct : Option String) :
    (userCreateValid v = true → ∃ s, v.password = some s ∧ 8 ≤ s.length) ∧
    (v.password = some "" →
      userEditValid v = userBaseValid v ∧ (cleanUserValues sel ct v).password = none) ∧
    (∀ s, v.password = some s → s ≠ "" → s.length < 8 → userEditValid v = false) := by
  refine ⟨?_, ?_, ?_⟩
  · intro h
    rcases hp : v.password with _ | s
    · rw [userCreateValid, hp] at h
      simp [createPasswordOk] at h
    · refine ⟨s, rfl, ?_⟩
      rw [userCreateValid, hp] at h
      simp [createPasswordOk] at h
      exact h.2.1
  · intro hp
    constructor
    · simp [userEditValid, editPasswordOk, hp]
    · simp [cleanUserValues, hp]
  · intro s hp hne hlt
    have h1 : (s == "") = false := by
      simp [hne]
    have h2 : ¬ (8 ≤ s.length ∧ s.length ≤ 100) := by omega
    simp [userEditValid, editPasswordOk, hp, h1, h2]

/-- Witness for C4 at concrete user form values: a valid create-mode
form has a long-enough password, a blank edit-mode password is dropped
from the payload without affecting validity, and a 4-character password
fails edit-mode validation. -/
theorem user_password_rules_witness :
    (∃ s, (UserFormValues.mk "john@example.com" "John" "Doe" (some "password1")
        true none []).password = some s ∧ 8 ≤ s.length) ∧
    (userEditValid (UserFormValues.mk "john@example.com" "John" "Doe" (some "")
        true none [])
      = userBaseValid (UserFormValues.mk "john@example.com" "John" "Doe" (some "")
        true none []) ∧
      (cleanUserValues false none
        (UserFormValues.mk "john@example.com" "John" "Doe" (some "")
          true none [])).password = none) ∧
    userEditValid (UserFormValues.mk "john@example.com" "John" "Doe" (some "wxyz")
        true none []) = false := by
  refine ⟨(user_password_rules _ false none).1 (by decide),
    (user_password_rules _ false none).2.1 rfl,
    (user_password_rules _ false none).2.2 "wxyz" rfl (by decide) (by decide)⟩

/-! ## C9: payload normalization of the client form -/

/-- A single conditionally-included string field is either omitted (when
its trimmed value is empty) or included as its trimmed, non-empty value. -/
theorem submitStringField_spec (o : Option String) :
    (∀ s, submitStringField o = some s → s = jsTrim (o.getD "") ∧ s ≠ "") ∧
    (jsTrim (o.getD "") = "" → submitStringField o = none) := by
  rcases o with _ | s0
  · constructor
    · intro s hs
      simp [submitStringField] at hs
    · intro _
      rfl
  · by_cases ht : jsTrim s0 = ""
    · constructor
      · intro s hs
        simp [submitStringField, ht] at hs
      · intro _
        simp [submitStringField, ht]
    · constructor
      · intro s hs
        simp [submitStringField, ht] at hs
        cases hs
        exact ⟨by simp, ht⟩
      · intro h
        simp [Option.getD] at h
        exact absurd h ht

/-- C9: the payload handed to the submit callback includes each optional
string field exactly when its trimmed value is non-empty, and then as the
trimmed value; a non-blank `extra_data` is included as its parsed JSON
value when parsing succeeds; and when parsing fails `extra_data` is
silently omitted while the rest of the payload is exactly what it would
have been without `extra_data`. -/
theorem clientHandleSubmit_normalizes (d : ClientFormData) :
    ((∀ s, (clientHandleSubmit d).first_name = some s →
        s = jsTrim (d.first_name.getD "") ∧ s ≠ "") ∧
      (jsTrim (d.first_name.getD "") = "" → (clientHandleSubmit d).first_name = none)) ∧
    ((∀ s, (clientHandleSubmit d).last_name = some s →
        s = jsTrim (d.last_name.getD "") ∧ s ≠ "") ∧
      (jsTrim (d.last_name.getD "") = "" → (clientHandleSubmit d).last_name = none)) ∧
    ((∀ s, (clientHandleSubmit d).entity_name = some s →
        s = jsTrim (d.entity_name.getD "") ∧ s ≠ "") ∧
      (jsTrim (d.entity_name.getD "") = "" → (clientHandleSubmit d).entity_name = none)) ∧
    ((∀ s, (clientHandleSubmit d).email = some s →
        s = jsTrim (d.email.getD "") ∧ s ≠ "") ∧
      (jsTrim (d.email.getD "") = "" → (clientHandleSubmit d).email = none)) ∧
    ((∀ s, (clientHandleSubmit d).phone = some s →
        s = jsTrim (d.phone.getD "") ∧ s ≠ "") ∧
      (jsTrim (d.phone.getD "") = "" → (clientHandleSubmit d).phone = none)) ∧
    (∀ s j, d.extra_data = some s → ¬ (jsTrim s = "") → jsonParse s = some j →
      (clientHandleSubmit d).extra_data = some j) ∧
    (∀ s, d.extra_data = some s → jsonParse s = none →
      (clientHandleSubmit d).extra_data = none ∧
      clientHandleSubmit d
        = clientHandleSubmit
            (ClientFormData.mk d.client_type d.first_name d.last_name d.entity_name
              d.email d.phone d.risk_profile d.kyc_status none)) := by
  obtain ⟨ct, fn, ln, en, em, ph, rp, ks, ed⟩ := d
  refine ⟨submitStringField_spec fn, submitStringField_spec ln,
    submitStringField_spec en, submitStringField_spec em,
    submitStringField_spec ph, ?_, ?_⟩
  · intro s j hs hne hj
    simp only at hs
    subst hs
    simp [clientHandleSubmit, hne, hj]
  · intro s hs hj
    simp only at hs
    subst hs
    by_cases ht : jsTrim s = "" <;>
      simp [clientHandleSubmit, hj, ht]

/-- Witness for C9 at concrete form data: a padded first name is trimmed
and included, a parsable `extra_data` is included as its parsed value, and
an unparsable `extra_data` is dropped while the rest of the payload is
unaffected. -/
theorem clientHandleSubmit_normalizes_witness :
    ("John" = jsTrim ((some " John " : Option String).getD "") ∧ "John" ≠ "") ∧
    (clientHandleSubmit
        (ClientFormData.mk ClientType.individual (some " John ") (some "Doe")
          none none none none none (some "[1, 2]"))).extra_data
      = some (Json.jarr [Json.jnum 1 0, Json.jnum 2 0]) ∧
    ((clientHandleSubmit
        (ClientFormData.mk ClientType.individual (some " John ") (some "Doe")
          none none none none none (some "oops"))).extra_data = none ∧
      clientHandleSubmit
        (ClientFormData.mk ClientType.individual (some " John ") (some "Doe")
          none none none none none (some "oops"))
        = clientHandleSubmit
            (ClientFormData.mk ClientType.individual (some " John ") (some "Doe")
              none none none none none none)) := by
  refine ⟨(clientHandleSubmit_normalizes
      (ClientFormData.mk ClientType.individual (some " John ") (some "Doe")
        none none none none none (some "[1, 2]"))).1.1 "John" rfl,
    (clientHandleSubmit_normalizes
      (ClientFormData.mk ClientType.individual (some " John ") (some "Doe")
        none none none none none (some "[1, 2]"))).2.2.2.2.2.1
      "[1, 2]" (Json.jarr [Json.jnum 1 0, Json.jnum 2 0]) rfl (by decide) rfl,
    (clientHandleSubmit_normalizes
      (ClientFormData.mk ClientType.individual (some " John ") (some "Doe")
        none none none none none (some "oops"))).2.2.2.2.2.2
      "oops" rfl rfl⟩

/-! ## C10: the slug generator -/

/-- Every character emitted by `collapseRuns` is either the replacement
character or an input character that does not satisfy `p`. -/
theorem collapseRuns_mem (p : Char → Bool) (r : Char) :
    ∀ (l : List Char) (b : Bool) (c : Char), c ∈ collapseRuns p r b l →
      c = r ∨ (p c = false ∧ c ∈ l) := by
  intro l
  induction l with
  | nil =>
    intro b c hc
    simp [collapseRuns] at hc
  | cons a t ih =>
    intro b c hc
    by_cases hpa : p a = true
    · cases b
      · simp [collapseRuns, hpa] at hc
        rcases hc with rfl | hc
        · exact Or.inl rfl
        · rcases ih true c hc with h | h
          · exact Or.inl h
          · exact Or.inr ⟨h.1, List.mem_cons_of_mem _ h.2⟩
      · simp [collapseRuns, hpa] at hc
        rcases ih true c hc with h | h
        · exact Or.inl h
        · exact Or.inr ⟨h.1, List.mem_cons_of_mem _ h.2⟩
    · simp at hpa
      simp [collapseRuns, hpa] at hc
      rcases hc with rfl | hc
      · exact Or.inr ⟨hpa, List.mem_cons_self _ _⟩
      · rcases ih false c hc with h | h
        · exact Or.inl h
        · exact Or.inr ⟨h.1, List.mem_cons_of_mem _ h.2⟩

/-- Inside a run, the next character `collapseRuns` emits never satisfies
`p`. -/
theorem collapseRuns_true_head (p : Char → Bool) (r : Char) :
    ∀ (l : List Char) (c : Char) (t : List Char),
      collapseRuns p r true l = c :: t → p c = false := by
  intro l
  induction l with
  | nil =>
    intro c t h
    simp [collapseRuns] at h
  | cons a s ih =>
    intro c t h
    by_cases hpa : p a = true
    · simp [collapseRuns, hpa] at h
      exact ih c t h
    · simp at hpa
      simp [collapseRuns, hpa] at h
      obtain ⟨h1, -⟩ := h
      cases h1
      exact hpa

/-- The output of `collapseRuns` never has two adjacent characters that
both satisfy `p`. -/
theorem collapseRuns_noAdjSat (p : Char → Bool) (r : Char) :
    ∀ (l : List Char) (b : Bool), noAdjSat p (collapseRuns p r b l) = true := by
  intro l
  induction l with
  | nil =>
    intro b
    rfl
  | cons a t ih =>
    intro b
    by_cases hpa : p a = true
    · cases b
      · rcases hX : collapseRuns p r true t with _ | ⟨h1, t1⟩
        · simp [collapseRuns, hpa, hX, noAdjSat]
        · have hh : p h1 = false := collapseRuns_true_head p r t h1 t1 hX
          have ht : noAdjSat p (h1 :: t1) = true := by
            rw [← hX]
            exact ih true
          simp [collapseRuns, hpa, hX, noAdjSat, hh, ht]
      · simp [collapseRuns, hpa]
        exact ih true
    · simp at hpa
      rcases hX : collapseRuns p r false t with _ | ⟨h1, t1⟩
      · simp [collapseRuns, hpa, hX, noAdjSat]
      · have ht : noAdjSat p (h1 :: t1) = true := by
          rw [← hX]
          exact ih false
        simp [collapseRuns, hpa, hX, noAdjSat, ht]

/-- On input without any `p`-character, `collapseRuns` is the identity. -/
theorem collapseRuns_id_of_not (p : Char → Bool) (r : Char) :
    ∀ (l : List Char), (∀ c ∈ l, p c = false) → collapseRuns p r false l = l := by
  intro l
  induction l with
  | nil =>
    intro _
    rfl
  | cons a t ih =>
    intro h
    have hpa : p a = false := h a (List.mem_cons_self _ _)
    simp [collapseRuns, hpa]
    exact ih (fun c hc => h c (List.mem_cons_of_mem _ hc))

/-- `noAdjSat` restricts to the tail. -/
theorem noAdjSat_tail (p : Char → Bool) (a : Char) (l : List Char)
    (h : noAdjSat p (a :: l) = true) : noAdjSat p l = true := by
  cases l with
  | nil => rfl
  | cons b t =>
    simp only [noAdjSat, Bool.and_eq_true] at h
    exact h.2

/-- On input with no adjacent `p`-characters whose `p`-characters all
equal the replacement, `collapseRuns` is the identity. -/
theorem collapseRuns_id_of_collapsed (p : Char → Bool) (r : Char) :
    ∀ (l : List Char), noAdjSat p l = true → (∀ c ∈ l, p c = true → c = r) →
      collapseRuns p r false l = l ∧
      (∀ a t, l = a :: t → p a = false → collapseRuns p r true l = l) := by
  intro l
  induction l with
  | nil =>
    intro _ _
    refine ⟨rfl, ?_⟩
    intro a t h
    simp at h
  | cons a t ih =>
    intro hadj hmem
    have hadjt : noAdjSat p t = true := noAdjSat_tail p a t hadj
    have hmemt : ∀ c ∈ t, p c = true → c = r :=
      fun c hc => hmem c (List.mem_cons_of_mem _ hc)
    obtain ⟨iht1, iht2⟩ := ih hadjt hmemt
    constructor
    · by_cases hpa : p a = true
      · have har : a = r := hmem a (List.mem_cons_self _ _) hpa
        subst har
        have htt : collapseRuns p a true t = t := by
          cases t with
          | nil => rfl
          | cons b s =>
            have hpb : p b = false := by
              simp [noAdjSat, hpa] at hadj
              exact hadj.1
            exact iht2 b s rfl hpb
        simp [collapseRuns, hpa, htt]
      · simp at hpa
        simp [collapseRuns, hpa, iht1]
    · intro x s hx hpx
      obtain ⟨h1, h2⟩ := List.cons.injEq a t x s ▸ hx
      cases h1
      simp [collapseRuns, hpx, iht1]

/-- A kept character that is not whitespace is a valid slug character. -/
theorem slugKeep_not_ws (c : Char) (hk : isSlugKeep c = true)
    (hw : isWsChar c = false) : isSlugOut c = true := by
  simp [isSlugKeep, hw] at hk
  simp [isSlugOut]
  tauto

/-- A slug output character is never whitespace. -/
theorem slugOut_not_ws (c : Char) (h : isSlugOut c = true) : isWsChar c = false := by
  cases hw : isWsChar c
  · rfl
  · exfalso
    simp [isWsChar] at hw
    rcases hw with ((rfl | rfl) | rfl) | rfl <;> revert h <;> decide

/-- A slug output character survives the keep filter. -/
theorem slugOut_keep (c : Char) (h : isSlugOut c = true) : isSlugKeep c = true := by
  simp [isSlugOut] at h
  simp [isSlugKeep]
  tauto

/-- A slug output character is unchanged by lowercasing. -/
theorem slugOut_toLower (c : Char) (h : isSlugOut c = true) : jsToLower c = c := by
  have hc : ¬ (65 ≤ c.toNat ∧ c.toNat ≤ 90) := by
    simp [isSlugOut, isLowerAZ, isDigit09, isHyph] at h
    rcases h with (h | h) | rfl
    · omega
    · omega
    · decide
  simp [jsToLower, hc]

/-- Every character of the slug core pipeline is a lowercase letter, a
digit, or a hyphen. -/
theorem slugCore_chars (l : List Char) :
    ∀ c ∈ slugCore l, isSlugOut c = true := by
  intro c hc
  rw [slugCore] at hc
  rcases collapseRuns_mem isHyph '-' _ false c hc with rfl | ⟨-, hc2⟩
  · decide
  · rcases collapseRuns_mem isWsChar '-' _ false c hc2 with rfl | ⟨hnw, hc3⟩
    · decide
    · exact slugKeep_not_ws c (List.mem_filter.mp hc3).2 hnw

/-- `dropWhile` is the identity when no element satisfies the predicate. -/
theorem dropWhile_id_of_not (p : Char → Bool) (l : List Char)
    (h : ∀ c ∈ l, p c = false) : l.dropWhile p = l := by
  cases l with
  | nil => rfl
  | cons a t =>
    have hpa : ¬ (p a = true) := by
      simp [h a (List.mem_cons_self _ _)]
    rw [List.dropWhile_cons, if_neg hpa]

/-- Trimming is the identity on whitespace-free input. -/
theorem trimWs_id (l : List Char) (h : ∀ c ∈ l, isWsChar c = false) :
    trimWsList l = l := by
  have h1 : l.dropWhile isWsChar = l := dropWhile_id_of_not _ _ h
  rw [trimWsList, h1]
  have h2 : ∀ c ∈ l.reverse, isWsChar c = false :=
    fun c hc => h c (List.mem_reverse.mp hc)
  rw [dropWhile_id_of_not _ _ h2, List.reverse_reverse]

/-- The final `.trim()` of the slug pipeline is a no-op: by then no
whitespace remains. -/
theorem slugList_eq_slugCore (l : List Char) : slugList l = slugCore l := by
  rw [slugList]
  exact trimWs_id _ (fun c hc => slugOut_not_ws c (slugCore_chars l c hc))

/-- The slug pipeline fixes any list of slug output characters with no
adjacent hyphens. -/
theorem slugList_fixed (l : List Char)
    (hchars : ∀ c ∈ l, isSlugOut c = true)
    (hadj : noAdjSat isHyph l = true) : slugList l = l := by
  have hmap : l.map jsToLower = l := by
    have h1 : l.map jsToLower = l.map id :=
      List.map_congr_left (fun c hc => slugOut_toLower c (hchars c hc))
    rw [h1, List.map_id]
  have hfil : l.filter isSlugKeep = l :=
    List.filter_eq_self.mpr (fun c hc => slugOut_keep c (hchars c hc))
  have hws : collapseRuns isWsChar '-' false l = l :=
    collapseRuns_id_of_not _ _ l (fun c hc => slugOut_not_ws c (hchars c hc))
  have hhy : collapseRuns isHyph '-' false l = l :=
    (collapseRuns_id_of_collapsed isHyph '-' l hadj
      (fun c _ hp => by simpa [isHyph] using hp)).1
  have htr : trimWsList l = l :=
    trimWs_id l (fun c hc => slugOut_not_ws c (hchars c hc))
  rw [slugList, slugCore, hmap, hfil, hws, hhy, htr]

/-- C10: `generateSlug` is idempotent, and its output consists only of
lowercase ASCII letters, digits and hyphens, with no two consecutive
hyphens. -/
theorem generateSlug_idempotent_and_charset (s : String) :
    generateSlug (generateSlug s) = generateSlug s ∧
    (generateSlug s).toList.all isSlugOut = true ∧
    noAdjSat isHyph (generateSlug s).toList = true := by
  have hchars := slugCore_chars s.toList
  have hadj : noAdjSat isHyph (slugCore s.toList) = true := by
    rw [slugCore]
    exact collapseRuns_noAdjSat isHyph '-' _ false
  have hlist : (generateSlug s).toList = slugCore s.toList := by
    rw [generateSlug, slugList_eq_slugCore]
    rfl
  refine ⟨?_, ?_, ?_⟩
  · have houter : generateSlug (generateSlug s)
        = String.mk (slugList ((generateSlug s).toList)) := rfl
    rw [houter, hlist, slugList_fixed (slugCore s.toList) hchars hadj,
      generateSlug, slugList_eq_slugCore]
  · rw [hlist, List.all_eq_true]
    exact hchars
  · rw [hlist]
    exact hadj
